import Mathlib

/-!
Verification of the release repository of `shopping-api`
(`src/infra/repositories/release/index.js`): the filter-mapping table, the
query composition it feeds, and the CRUD helper functions
(`createImages`, `getAllImages`, `countLikeReleases`, `setHiddenDashboard`).

JavaScript primitives used by the source (`parseFloat`, `parseInt`,
`String.prototype.split(/\s+/g)`, the SQL `LIKE` operator reached through
`Op.like`, and `moment.utc`) are embedded explicitly below; numbers are
modelled as exact rationals together with the JavaScript special values
`NaN` and `Infinity`.
-/

/-- A JavaScript number as produced by `parseFloat`: `NaN`, a signed
infinity, or a finite value (modelled exactly as a rational). -/
inductive JSNum
  | nan
  | inf (neg : Bool)
  | num (q : Rat)
deriving DecidableEq, Repr

/-- Whitespace as matched by the JavaScript regex class `\s` (ASCII part
plus the no-break space; the remaining Unicode space separators are not
modelled). -/
def isWS (c : Char) : Bool :=
  c = ' ' || c = '\t' || c = '\n' || c = '\r' || c = '\x0b' || c = '\x0c' || c = ' '

/-- Value of a list of decimal digit characters. -/
def digitsVal (cs : List Char) : Nat :=
  cs.foldl (fun n c => n * 10 + (c.toNat - '0'.toNat)) 0

/-- Strip an optional leading `+`/`-` sign, returning (isNegative, rest). -/
def stripSign : List Char → Bool × List Char
  | '+' :: rest => (false, rest)
  | '-' :: rest => (true, rest)
  | rest => (false, rest)

/-- JavaScript `parseFloat`: skip leading whitespace, read an optional sign,
then the longest prefix that is `Infinity` or a decimal literal
(`digits [. digits] [e|E [sign] digits]`); trailing garbage is ignored and
`NaN` is returned when no digits are found. -/
def jsParseFloat (s : String) : JSNum :=
  let cs := s.data.dropWhile (fun c => isWS c)
  let sgn := stripSign cs
  let neg := sgn.1
  let cs := sgn.2
  if cs.take 8 = "Infinity".data then JSNum.inf neg
  else
    let intPart := cs.takeWhile Char.isDigit
    let cs1 := cs.dropWhile Char.isDigit
    let fracSplit : List Char × List Char :=
      match cs1 with
      | '.' :: rest => (rest.takeWhile Char.isDigit, rest.dropWhile Char.isDigit)
      | _ => ([], cs1)
    let fracPart := fracSplit.1
    let cs2 := fracSplit.2
    if intPart.isEmpty && fracPart.isEmpty then JSNum.nan
    else
      let digits := digitsVal intPart * 10 ^ fracPart.length + digitsVal fracPart
      let expo : Int :=
        match cs2 with
        | c :: rest =>
          if c = 'e' || c = 'E' then
            let esgn := stripSign rest
            let eds := esgn.2.takeWhile Char.isDigit
            if eds.isEmpty then 0
            else if esgn.1 then -(digitsVal eds : Int) else (digitsVal eds : Int)
          else 0
        | [] => 0
      let mag : Rat :=
        if 0 ≤ expo then mkRat (Int.ofNat (digits * 10 ^ expo.toNat)) (10 ^ fracPart.length)
        else mkRat (Int.ofNat digits) (10 ^ (fracPart.length + (-expo).toNat))
      JSNum.num (if neg then -mag else mag)

/-- Hexadecimal digit test. -/
def isHexDig (c : Char) : Bool :=
  c.isDigit || ('a' ≤ c && c ≤ 'f') || ('A' ≤ c && c ≤ 'F')

/-- Value of a hexadecimal digit character. -/
def hexDigitVal (c : Char) : Nat :=
  if c.isDigit then c.toNat - '0'.toNat
  else if 'a' ≤ c && c ≤ 'f' then c.toNat - 'a'.toNat + 10
  else c.toNat - 'A'.toNat + 10

/-- Value of a list of hexadecimal digit characters. -/
def hexVal (cs : List Char) : Nat :=
  cs.foldl (fun n c => n * 16 + hexDigitVal c) 0

/-- Decimal tail of `parseInt`: longest digit prefix, `none` (NaN) if empty. -/
def jsParseIntDec (neg : Bool) (cs : List Char) : Option Int :=
  let ds := cs.takeWhile Char.isDigit
  if ds.isEmpty then none
  else some ((if neg then -1 else 1) * (digitsVal ds : Int))

/-- JavaScript `parseInt` with no radix argument: skip whitespace, optional
sign, then either a `0x`/`0X` hexadecimal literal or a decimal literal;
`none` stands for `NaN`. -/
def jsParseInt (s : String) : Option Int :=
  let cs := s.data.dropWhile (fun c => isWS c)
  let sgn := stripSign cs
  let neg := sgn.1
  match sgn.2 with
  | '0' :: c :: rest =>
    if c = 'x' || c = 'X' then
      let ds := rest.takeWhile isHexDig
      if ds.isEmpty then none
      else some ((if neg then -1 else 1) * (hexVal ds : Int))
    else jsParseIntDec neg ('0' :: c :: rest)
  | rest => jsParseIntDec neg rest

/-- One step of the JavaScript `value.split(/\s+/g)` scan.  The state is
(tokens already emitted, current token reversed, currently inside a
whitespace separator run). -/
def splitWSStep (st : List (List Char) × List Char × Bool) (c : Char) :
    List (List Char) × List Char × Bool :=
  if isWS c then
    if st.2.2 then st
    else (st.1 ++ [st.2.1.reverse], [], true)
  else (st.1, c :: st.2.1, false)

/-- JavaScript `value.split(/\s+/g)`: the pieces of the string between
maximal whitespace runs.  A leading (resp. trailing) whitespace run yields
an empty first (resp. last) piece, and the empty string yields `[[]]`,
exactly as in JavaScript. -/
def splitWS (l : List Char) : List (List Char) :=
  let st := l.foldl splitWSStep ([], [], false)
  st.1 ++ [st.2.1.reverse]

/-- SQL `LIKE` pattern matching: `%` matches any (possibly empty) sequence,
`_` matches exactly one character, anything else matches itself.  This is
the semantics of the patterns the source hands to `Op.like` (no `ESCAPE`
clause is involved). -/
def likeMatch : List Char → List Char → Bool
  | [], s => s.isEmpty
  | p :: ps, s =>
    if p = '%' then s.tails.any (fun t => likeMatch ps t)
    else
      match s with
      | [] => false
      | c :: s' => if p = '_' then likeMatch ps s' else p == c && likeMatch ps s'

/-- Split a character list at every dash. -/
def splitOnDash (l : List Char) : List (List Char) :=
  let st := l.foldl
    (fun (st : List (List Char) × List Char) c =>
      if c = '-' then (st.1 ++ [st.2.reverse], []) else (st.1, c :: st.2))
    ([], [])
  st.1 ++ [st.2.reverse]

/-- `moment.utc(value)` on a string: calendar-date parsing of the external
`moment` library, modelled for `YYYY-MM-DD` inputs.  A date is encoded as a
single `Nat` that is strictly monotone in (year, month, day); `none` stands
for moment's invalid date (any unparseable input). -/
def momentUtc (s : String) : Option Nat :=
  match splitOnDash s.data with
  | [y, m, d] =>
    if !y.isEmpty && y.all Char.isDigit
        && !m.isEmpty && m.all Char.isDigit
        && !d.isEmpty && d.all Char.isDigit
        && decide (1 ≤ digitsVal m) && decide (digitsVal m ≤ 12)
        && decide (1 ≤ digitsVal d) && decide (digitsVal d ≤ 31) then
      some (digitsVal y * 372 + (digitsVal m - 1) * 31 + (digitsVal d - 1))
    else none
  | _ => none

/-- A raw filter value from the input parameter object: a scalar string or
an array of strings (query-string parameters repeat keys to form arrays). -/
inductive FilterValue
  | scalar (s : String)
  | array (l : List String)
deriving DecidableEq, Repr

/-- JavaScript string coercion of a filter value (`String(value)`): an array
is joined with commas.  This is what `parseFloat`/`parseInt` receive when a
filter written for scalars is handed an array. -/
def toJSString : FilterValue → String
  | .scalar s => s
  | .array l => String.intercalate "," l

/-- `moment.utc(value)` on a raw filter value.  A scalar is parsed as a date
string; `moment` interprets an array as [year, month-index, day] components
(month index 0-based, missing components defaulting to January / day 1).
Modelled from the external library's documented behavior. -/
def momentUtcFV : FilterValue → Option Nat
  | .scalar s => momentUtc s
  | .array l =>
    let part := fun (p : String) =>
      if !p.data.isEmpty && p.data.all Char.isDigit then some (digitsVal p.data) else none
    match l.map part with
    | [some y] => some (y * 372)
    | [some y, some m] => if m ≤ 11 then some (y * 372 + m * 31) else none
    | [some y, some m, some d] =>
      if m ≤ 11 && 1 ≤ d && d ≤ 31 then some (y * 372 + m * 31 + (d - 1)) else none
    | _ => none

/-- Columns referenced by the filter table.  `brand` and `id` live on the
joined style/category models, `status` and `shipping` on the offer model;
the rest are columns of the releases table. -/
inductive Col
  | brand | id | status | shipping
  | releaseDate | priceEUR | priceGBP | priceUSD
  | gender | color | name | sku | slug
deriving DecidableEq, Repr

/-- An SQL value as it appears inside a predicate: a string, a JavaScript
number, a calendar date, moment's invalid date, or SQL `NULL`. -/
inductive SqlVal
  | str (s : String)
  | jnum (n : JSNum)
  | dat (d : Nat)
  | invalidDate
  | null
deriving DecidableEq, Repr

/-- A primitive condition on a single column, mirroring the operator objects
the source builds (`Op.eq` implicit, `Op.lt`, `Op.gte`, `Op.lte`,
`Op.ne: null`, `value: null`, `Op.like`). -/
inductive PrimCond
  | eqv (v : SqlVal)
  | lt (v : SqlVal)
  | gte (v : SqlVal)
  | lte (v : SqlVal)
  | neNull
  | isNull
  | like (pat : List Char)
deriving DecidableEq, Repr

/-- A condition on a single column: a primitive condition, or an `Op.or` /
`Op.and` of primitive conditions (the only nesting the source constructs). -/
inductive WhereCond
  | prim (p : PrimCond)
  | orv (cs : List PrimCond)
  | andv (cs : List PrimCond)
deriving DecidableEq, Repr

/-- A `where` object as built by a filter function: either a condition on a
named column, or a top-level `Op.or` over several column conditions (the
shape the `query` filter builds). -/
inductive FilterExpr
  | field (f : Col) (c : WhereCond)
  | orFields (fcs : List (Col × WhereCond))
deriving DecidableEq, Repr

/-- The joined models a filter can be scoped to (absence means the filter
applies to the release model itself). -/
inductive TargetModel
  | styleModel | categoriesModel | offerModel
deriving DecidableEq, Repr

/-- Result of one filter function: the predicate fragment and the model it
is scoped to (`none` = the releases model). -/
structure FilterResult where
  filter : FilterExpr
  model : Option TargetModel := none
deriving DecidableEq, Repr

/-- `Array.isArray(value) ? { [Op.or]: value } : value` for an
equality-style filter. -/
def scalarOrArrayEq : FilterValue → WhereCond
  | .scalar s => .prim (.eqv (.str s))
  | .array l => .orv (l.map (fun x => PrimCond.eqv (.str x)))

/-- The `brandId` entry of `filterMappings`. -/
def filterMappings.brandId (value : FilterValue) : FilterResult :=
  { filter := .field .brand (scalarOrArrayEq value), model := some .styleModel }

/-- The `categoryId` entry of `filterMappings`. -/
def filterMappings.categoryId (value : FilterValue) : FilterResult :=
  { filter := .field .id (scalarOrArrayEq value), model := some .categoriesModel }

/-- The `status` entry of `filterMappings`. -/
def filterMappings.status (value : FilterValue) : FilterResult :=
  { filter := .field .status (scalarOrArrayEq value), model := some .offerModel }

/-- The `shipping` entry of `filterMappings`. -/
def filterMappings.shipping (value : FilterValue) : FilterResult :=
  { filter := .field .shipping (scalarOrArrayEq value), model := some .offerModel }

/-- The `outdated` entry of `filterMappings`.  `today` is the current UTC
calendar date the function reads via `moment.utc().format('YYYY-MM-DD')`;
the value argument is ignored by the source. -/
def filterMappings.outdated (today : Nat) (_value : FilterValue) : FilterResult :=
  { filter := .field .releaseDate (.andv [.lt (.dat today), .neNull]) }

/-- The `coming` entry of `filterMappings`; `today` as in `outdated`. -/
def filterMappings.coming (today : Nat) (_value : FilterValue) : FilterResult :=
  { filter := .field .releaseDate (.andv [.gte (.dat today), .neNull]) }

/-- The `upcoming` entry of `filterMappings`: `parseInt(value) === 0` asks
for scheduled releases, anything else (including NaN) for unscheduled. -/
def filterMappings.upcoming (value : FilterValue) : FilterResult :=
  match jsParseInt (toJSString value) with
  | some 0 => { filter := .field .releaseDate (.prim .neNull) }
  | _ => { filter := .field .releaseDate (.prim .isNull) }

/-- The `minPriceEUR` entry of `filterMappings`. -/
def filterMappings.minPriceEUR (value : FilterValue) : FilterResult :=
  { filter := .field .priceEUR (.prim (.gte (.jnum (jsParseFloat (toJSString value))))) }

/-- The `maxPriceEUR` entry of `filterMappings`. -/
def filterMappings.maxPriceEUR (value : FilterValue) : FilterResult :=
  { filter := .field .priceEUR (.prim (.lte (.jnum (jsParseFloat (toJSString value))))) }

/-- The `minPriceGBP` entry of `filterMappings`. -/
def filterMappings.minPriceGBP (value : FilterValue) : FilterResult :=
  { filter := .field .priceGBP (.prim (.gte (.jnum (jsParseFloat (toJSString value))))) }

/-- The `maxPriceGBP` entry of `filterMappings`. -/
def filterMappings.maxPriceGBP (value : FilterValue) : FilterResult :=
  { filter := .field .priceGBP (.prim (.lte (.jnum (jsParseFloat (toJSString value))))) }

/-- The `minPriceUSD` entry of `filterMappings`. -/
def filterMappings.minPriceUSD (value : FilterValue) : FilterResult :=
  { filter := .field .priceUSD (.prim (.gte (.jnum (jsParseFloat (toJSString value))))) }

/-- The `maxPriceUSD` entry of `filterMappings`. -/
def filterMappings.maxPriceUSD (value : FilterValue) : FilterResult :=
  { filter := .field .priceUSD (.prim (.lte (.jnum (jsParseFloat (toJSString value))))) }

/-- The value `moment.utc(value)` contributes to a date bound: a calendar
date, or moment's invalid date when the input does not parse. -/
def momentVal (value : FilterValue) : SqlVal :=
  match momentUtcFV value with
  | some d => .dat d
  | none => .invalidDate

/-- The `fromDate` entry of `filterMappings`. -/
def filterMappings.fromDate (value : FilterValue) : FilterResult :=
  { filter := .field .releaseDate (.prim (.gte (momentVal value))) }

/-- The `toDate` entry of `filterMappings`. -/
def filterMappings.toDate (value : FilterValue) : FilterResult :=
  { filter := .field .releaseDate (.prim (.lte (momentVal value))) }

/-- The `gender` entry of `filterMappings`: an `Op.or` over the requested
value(s) with the literal `'u'` appended (`[...value, 'u']` / `[value, 'u']`). -/
def filterMappings.gender (value : FilterValue) : FilterResult :=
  { filter := .field .gender
      (match value with
       | .array l => .orv ((l ++ ["u"]).map (fun x => PrimCond.eqv (.str x)))
       | .scalar s => .orv [.eqv (.str s), .eqv (.str "u")]) }

/-- The `color` entry of `filterMappings`: an `Op.or` of `Op.like`
substring patterns, one per requested color. -/
def filterMappings.color (value : FilterValue) : FilterResult :=
  let colors := match value with | .array l => l | .scalar s => [s]
  { filter := .field .color (.orv (colors.map (fun c => PrimCond.like ('%' :: c.data ++ ['%'])))) }

/-- The `query` entry of `filterMappings`: tokenize on whitespace with
`value.split(/\s+/g)`, build one `Op.like` `%word%` pattern per token, and
require all of them on `name` or all of them on `sku`. -/
def filterMappings.query (value : String) : FilterResult :=
  let words := splitWS value.data
  let likes := words.map (fun w => PrimCond.like ('%' :: w ++ ['%']))
  { filter := .orFields [(.name, .andv likes), (.sku, .andv likes)] }

/-- `a ≤ b` on JavaScript numbers: false whenever NaN is involved,
otherwise the usual extended-real order. -/
def jsNumLe : JSNum → JSNum → Bool
  | .nan, _ => false
  | _, .nan => false
  | .inf true, _ => true
  | _, .inf false => true
  | .inf false, _ => false
  | _, .inf true => false
  | .num a, .num b => decide (a ≤ b)

/-- `a < b` on JavaScript numbers: false whenever NaN is involved. -/
def jsNumLt : JSNum → JSNum → Bool
  | .nan, _ => false
  | _, .nan => false
  | .inf true, .inf true => false
  | .inf true, _ => true
  | _, .inf false => true
  | .inf false, _ => false
  | _, .inf true => false
  | .num a, .num b => decide (a < b)

/-- Equality on JavaScript numbers as SQL sees it: NaN equals nothing. -/
def jsNumEq : JSNum → JSNum → Bool
  | .nan, _ => false
  | _, .nan => false
  | .inf a, .inf b => a == b
  | .num a, .num b => a == b
  | _, _ => false

/-- SQL equality of two values.  A comparison involving `NULL`, NaN or an
invalid date never holds. -/
def sqlEq : SqlVal → SqlVal → Bool
  | .str a, .str b => a == b
  | .jnum a, .jnum b => jsNumEq a b
  | .dat a, .dat b => a == b
  | _, _ => false

/-- SQL `<` of two values (false on `NULL`, NaN, invalid dates, or
incomparable kinds). -/
def sqlLt : SqlVal → SqlVal → Bool
  | .jnum a, .jnum b => jsNumLt a b
  | .dat a, .dat b => decide (a < b)
  | _, _ => false

/-- SQL `<=` of two values. -/
def sqlLe : SqlVal → SqlVal → Bool
  | .jnum a, .jnum b => jsNumLe a b
  | .dat a, .dat b => decide (a ≤ b)
  | _, _ => false

/-- SQL `>=` of two values. -/
def sqlGe (a b : SqlVal) : Bool := sqlLe b a

/-- Evaluation of a primitive condition against the value of its column. -/
def evalPrim (v : SqlVal) : PrimCond → Bool
  | .eqv w => sqlEq v w
  | .lt w => sqlLt v w
  | .gte w => sqlGe v w
  | .lte w => sqlLe v w
  | .neNull => match v with | .null => false | _ => true
  | .isNull => match v with | .null => true | _ => false
  | .like pat => match v with | .str s => likeMatch pat s.data | _ => false

/-- Evaluation of a column condition against the value of its column. -/
def evalCond (v : SqlVal) : WhereCond → Bool
  | .prim p => evalPrim v p
  | .orv cs => cs.any (fun c => evalPrim v c)
  | .andv cs => cs.all (fun c => evalPrim v c)

/-- A row of the releases table as this layer sees it.  `releaseDate` is
nullable; prices are exact numerics. -/
structure ReleaseRow where
  id : Nat
  slug : String
  name : String
  sku : String
  gender : String
  color : String
  releaseDate : Option Nat
  priceEUR : Rat
  priceGBP : Rat
  priceUSD : Rat
  hiddenDashboard : Bool
  updatedAt : Nat
deriving DecidableEq, Repr

/-- Value of a column on a release row.  Columns of the joined
style/category/offer models are not columns of the releases table and are
never evaluated against a release row. -/
def fieldVal (r : ReleaseRow) : Col → SqlVal
  | .name => .str r.name
  | .sku => .str r.sku
  | .gender => .str r.gender
  | .color => .str r.color
  | .slug => .str r.slug
  | .releaseDate => match r.releaseDate with | none => .null | some d => .dat d
  | .priceEUR => .jnum (.num r.priceEUR)
  | .priceGBP => .jnum (.num r.priceGBP)
  | .priceUSD => .jnum (.num r.priceUSD)
  | _ => .null

/-- Whether a release row satisfies a `where` object (the SQL semantics of
the predicate fragments the filter functions build against the releases
model). -/
def evalFilterExpr (r : ReleaseRow) : FilterExpr → Bool
  | .field f c => evalCond (fieldVal r f) c
  | .orFields fcs => fcs.any (fun fc => evalCond (fieldVal r fc.1) fc.2)

/-- The keys of the `filterMappings` registry. -/
inductive FilterKey
  | brandId | categoryId | status | shipping | outdated | coming | upcoming
  | minPriceEUR | maxPriceEUR | minPriceGBP | maxPriceGBP | minPriceUSD | maxPriceUSD
  | fromDate | toDate | gender | color | query
deriving DecidableEq, Repr

/-- A JavaScript runtime error escaping a filter function (`value.split` is
not a function when `query` receives an array). -/
inductive FilterError
  | typeError
deriving DecidableEq, Repr

/-- Look up a key in `filterMappings` and apply its filter function to the
raw value.  `today` is the current UTC calendar date, read from the clock
by the `outdated` and `coming` entries. -/
def applyFilter (today : Nat) (k : FilterKey) (v : FilterValue) :
    Except FilterError FilterResult :=
  match k with
  | .brandId => .ok (filterMappings.brandId v)
  | .categoryId => .ok (filterMappings.categoryId v)
  | .status => .ok (filterMappings.status v)
  | .shipping => .ok (filterMappings.shipping v)
  | .outdated => .ok (filterMappings.outdated today v)
  | .coming => .ok (filterMappings.coming today v)
  | .upcoming => .ok (filterMappings.upcoming v)
  | .minPriceEUR => .ok (filterMappings.minPriceEUR v)
  | .maxPriceEUR => .ok (filterMappings.maxPriceEUR v)
  | .minPriceGBP => .ok (filterMappings.minPriceGBP v)
  | .maxPriceGBP => .ok (filterMappings.maxPriceGBP v)
  | .minPriceUSD => .ok (filterMappings.minPriceUSD v)
  | .maxPriceUSD => .ok (filterMappings.maxPriceUSD v)
  | .fromDate => .ok (filterMappings.fromDate v)
  | .toDate => .ok (filterMappings.toDate v)
  | .gender => .ok (filterMappings.gender v)
  | .color => .ok (filterMappings.color v)
  | .query =>
    match v with
    | .scalar s => .ok (filterMappings.query s)
    | .array _ => .error .typeError

instance {ε α : Type} [DecidableEq ε] [DecidableEq α] : DecidableEq (Except ε α) := fun a b =>
  match a, b with
  | .ok x, .ok y => if h : x = y then isTrue (by rw [h]) else isFalse (by simp [h])
  | .error x, .error y => if h : x = y then isTrue (by rw [h]) else isFalse (by simp [h])
  | .ok _, .error _ => isFalse (by simp)
  | .error _, .ok _ => isFalse (by simp)

/-- Modelled from the spec: the query composer of section 4.2 lives in
`base_repository`, outside this repository's source.  For every input key
present in the registry it applies the corresponding filter function,
surfacing any failure before the database is consulted, and combines the
resulting fragments (with AND across keys). -/
def composeQuery (today : Nat) (params : List (FilterKey × FilterValue)) :
    Except FilterError (List FilterResult) :=
  params.mapM (fun p => applyFilter today p.1 p.2)

/-- A row of the release_images table. -/
structure ImageRow where
  id : Nat
  image : String
deriving DecidableEq, Repr

/-- The domain image value object. -/
structure DomainImage where
  id : Nat
  image : String
deriving DecidableEq, Repr

/-- Modelled from the spec: the domain conversion function
`ReleaseImage(row)` of `src/domain/release` is externally defined and pure;
it carries the row's data into the domain representation. -/
def ReleaseImage (row : ImageRow) : DomainImage :=
  { id := row.id, image := row.image }

/-- The persisted state this layer touches: release rows, image rows, and
the release-image association rows. -/
structure DB where
  releases : List ReleaseRow
  images : List ImageRow
  assoc : List (Nat × Nat)
deriving DecidableEq, Repr

/-- The error thrown on a missed id lookup (`EntityNotFoundError`). -/
inductive RepoError
  | entityNotFound
deriving DecidableEq, Repr

/-- `model.findOne({ where: { id } })`: the first release row with the
given id, if any. -/
def findOne (db : DB) (id : Nat) : Option ReleaseRow :=
  db.releases.find? (fun r => r.id == id)

/-- Modelled from the spec: the association getter `release.getImages()` of
the persistence backend returns the image rows associated to the release. -/
def getImages (db : DB) (releaseId : Nat) : List ImageRow :=
  db.images.filter (fun im => db.assoc.contains (releaseId, im.id))

/-- `createImages(id, images)`: look the release up, throw
`EntityNotFound` if absent, bulk-insert the image rows, associate them to
the release, and return the created rows.  The result is the thrown error
or the returned rows, paired with the state after the call. -/
def createImages (db : DB) (id : Nat) (images : List ImageRow) :
    Except RepoError (List ImageRow) × DB :=
  match findOne db id with
  | none => (.error .entityNotFound, db)
  | some release =>
    let newImages := images
    let db1 : DB := { db with images := db.images ++ newImages }
    let db2 : DB := { db1 with assoc := db1.assoc ++ newImages.map (fun im => (release.id, im.id)) }
    (.ok newImages, db2)

/-- `getAllImages(id)`: look the release up, throw `EntityNotFound` if
absent, and return its associated images converted by `ReleaseImage`.  The
source's `if (!images) return []` guard never fires, because in JavaScript
both the promise `getImages()` returns and the array it resolves to are
truthy; the promise-library `map` then converts each resolved row. -/
def getAllImages (db : DB) (id : Nat) : Except RepoError (List DomainImage) :=
  match findOne db id with
  | none => .error .entityNotFound
  | some release =>
    let images := getImages db release.id
    .ok (images.map (fun data => ReleaseImage data))

/-- `countLikeReleases(slug)`: `findAll` with `slug LIKE `slug%``, then the
length of the result.  The source's `if (!releases) return 0` guard never
fires, because `findAll` resolves to an array and even the empty array is
truthy in JavaScript. -/
def countLikeReleases (db : DB) (slug : String) : Nat :=
  let releases := db.releases.filter (fun r => likeMatch (slug.data ++ ['%']) r.slug.data)
  releases.length

/-- `setHiddenDashboard(id, hiddenDashboard)`:
`model.update({ hiddenDashboard }, { where: { id } })`.  Modelled from the
spec: the persistence backend manages timestamps automatically (section 4.3
has `modifyUpdatedAt` issue a raw query precisely to bypass that), so a
normal `update` also stamps `updatedAt` with the current time `now` on
every row it touches. -/
def setHiddenDashboard (db : DB) (now : Nat) (id : Nat) (hiddenDashboard : Bool) : DB :=
  { db with releases := db.releases.map (fun r =>
      if r.id == id then { r with hiddenDashboard := hiddenDashboard, updatedAt := now } else r) }

/-- A string free of the SQL LIKE metacharacters. -/
def NoMeta (p : List Char) : Prop := ∀ c ∈ p, c ≠ '%' ∧ c ≠ '_'

theorem likeMatch_percent_nil (s : List Char) : likeMatch ['%'] s = true := by
  simp only [likeMatch, ite_true, if_true, List.any_eq_true, eq_self_iff_true, if_pos]
  exact ⟨[], (List.mem_tails _ _).mpr (List.nil_suffix : [] <:+ s), by simp⟩

theorem likeMatch_append_percent (p : List Char) (h : NoMeta p) (s : List Char) :
    likeMatch (p ++ ['%']) s = p.isPrefixOf s := by
  induction p generalizing s with
  | nil => simp [likeMatch_percent_nil, List.isPrefixOf]
  | cons c p ih =>
    obtain ⟨hc1, hc2⟩ := h c (by simp)
    have hrest : NoMeta p := fun x hx => h x (by simp [hx])
    cases s with
    | nil => simp [likeMatch, hc1, List.isPrefixOf]
    | cons d s =>
      simp only [List.cons_append, likeMatch, if_neg hc1, if_neg hc2, List.isPrefixOf,
        List.append_eq, ih hrest]

theorem likeMatch_wrap_percent (p : List Char) (h : NoMeta p) (s : List Char) :
    likeMatch ('%' :: p ++ ['%']) s = true ↔ p <:+: s := by
  have hunf : likeMatch ('%' :: p ++ ['%']) s = s.tails.any (fun t => likeMatch (p ++ ['%']) t) := by
    simp [likeMatch]
  rw [hunf, List.any_eq_true]
  constructor
  · rintro ⟨t, ht, hm⟩
    rw [List.mem_tails] at ht
    rw [likeMatch_append_percent p h t, List.isPrefixOf_iff_prefix] at hm
    exact List.infix_iff_prefix_suffix.mpr ⟨t, hm, ht⟩
  · intro hinf
    obtain ⟨t, hpre, hsuf⟩ := List.infix_iff_prefix_suffix.mp hinf
    refine ⟨t, (List.mem_tails _ _).mpr hsuf, ?_⟩
    rw [likeMatch_append_percent p h t, List.isPrefixOf_iff_prefix]
    exact hpre

/-- Whether a string neither is empty nor starts or ends with whitespace. -/
def noEdgeWS (l : List Char) : Bool :=
  match l.head?, l.getLast? with
  | some a, some b => !isWS a && !isWS b
  | _, _ => false

/-- Invariant of the `splitWS` scan: every emitted token is nonempty, and
the current token is nonempty unless the scan sits inside a separator run. -/
def splitInv (st : List (List Char) × List Char × Bool) : Prop :=
  (∀ t ∈ st.1, t ≠ []) ∧ (st.2.2 = true ∨ st.2.1 ≠ [])

theorem splitInv_step (st : List (List Char) × List Char × Bool) (c : Char)
    (h : splitInv st) : splitInv (splitWSStep st c) := by
  obtain ⟨hdone, hcur⟩ := h
  by_cases hws : isWS c
  · by_cases hsep : st.2.2 = true
    · have hstep : splitWSStep st c = st := by simp [splitWSStep, hws, hsep]
      rw [hstep]
      exact ⟨hdone, hcur⟩
    · have hne : st.2.1 ≠ [] := hcur.resolve_left hsep
      have hstep : splitWSStep st c = (st.1 ++ [st.2.1.reverse], [], true) := by
        simp [splitWSStep, hws, hsep]
      rw [hstep]
      refine ⟨?_, Or.inl rfl⟩
      intro t ht
      rcases List.mem_append.mp ht with h1 | h1
      · exact hdone t h1
      · rw [List.mem_singleton] at h1
        subst h1
        simpa using hne
  · have hstep : splitWSStep st c = (st.1, c :: st.2.1, false) := by
      simp [splitWSStep, hws]
    rw [hstep]
    exact ⟨hdone, Or.inr (by simp)⟩

theorem splitInv_foldl (l : List Char) (st : List (List Char) × List Char × Bool)
    (h : splitInv st) : splitInv (l.foldl splitWSStep st) := by
  induction l generalizing st with
  | nil => exact h
  | cons c l ih => exact ih _ (splitInv_step st c h)

/-- A string that is nonempty and has no leading or trailing whitespace
splits into nonempty tokens only. -/
theorem splitWS_tokens_ne_nil (l : List Char) (h : noEdgeWS l = true) :
    ∀ t ∈ splitWS l, t ≠ [] := by
  cases l with
  | nil => simp [noEdgeWS] at h
  | cons c cs =>
    rcases List.eq_nil_or_concat cs with hnil | ⟨ds, d, hconcat⟩
    · subst hnil
      have hc : isWS c = false := by
        have hlast : ([c] : List Char).getLast? = some c := rfl
        unfold noEdgeWS at h
        rw [show ([c] : List Char).head? = some c from rfl, hlast] at h
        simp only [Bool.and_eq_true, Bool.not_eq_true'] at h
        exact h.1
      intro t ht
      have hone : splitWS [c] = [[c]] := by
        simp [splitWS, splitWSStep, hc]
      rw [hone, List.mem_singleton] at ht
      subst ht
      simp
    · subst hconcat
      simp only [List.concat_eq_append] at h ⊢
      have hlast : (c :: (ds ++ [d])).getLast? = some d := by
        rw [← List.cons_append]
        exact List.getLast?_concat _
      have hcd : isWS c = false ∧ isWS d = false := by
        unfold noEdgeWS at h
        rw [show (c :: (ds ++ [d])).head? = some c from rfl, hlast] at h
        simpa only [Bool.and_eq_true, Bool.not_eq_true'] using h
      have hinv0 : splitInv (splitWSStep ([], [], false) c) := by
        have hstep : splitWSStep ([], [], false) c = ([], [c], false) := by
          simp [splitWSStep, hcd.1]
        rw [hstep]
        exact ⟨by simp, Or.inr (by simp)⟩
      have hinv1 : splitInv (ds.foldl splitWSStep (splitWSStep ([], [], false) c)) :=
        splitInv_foldl ds _ hinv0
      have hfold : (c :: (ds ++ [d])).foldl splitWSStep ([], [], false) =
          splitWSStep (ds.foldl splitWSStep (splitWSStep ([], [], false) c)) d := by
        rw [List.foldl_cons, List.foldl_append, List.foldl_cons, List.foldl_nil]
      have hstep : splitWSStep (ds.foldl splitWSStep (splitWSStep ([], [], false) c)) d =
          ((ds.foldl splitWSStep (splitWSStep ([], [], false) c)).1,
            d :: (ds.foldl splitWSStep (splitWSStep ([], [], false) c)).2.1, false) := by
        simp [splitWSStep, hcd.2]
      intro t ht
      have hsplit : splitWS (c :: (ds ++ [d])) =
          ((c :: (ds ++ [d])).foldl splitWSStep ([], [], false)).1 ++
            [((c :: (ds ++ [d])).foldl splitWSStep ([], [], false)).2.1.reverse] := rfl
      rw [hsplit, hfold, hstep] at ht
      rcases List.mem_append.mp ht with h1 | h1
      · exact hinv1.1 t h1
      · rw [List.mem_singleton] at h1
        subst h1
        simp

/-- The list of gender values requested by a raw filter value. -/
def requestedValues : FilterValue → List String
  | .scalar s => [s]
  | .array l => l

/-- C2: for every requested gender value or array of values, the `gender`
filter matches exactly the releases whose gender equals one of the requested
values or the literal "u"; in particular a requested gender "m" matches
releases with gender "m" or "u" and never one with gender "f" alone. -/
theorem gender_filter_matches_requested_or_unisex (v : FilterValue) (r : ReleaseRow) :
    (evalFilterExpr r (filterMappings.gender v).filter = true ↔
      r.gender ∈ requestedValues v ∨ r.gender = "u")
    ∧ evalFilterExpr r (filterMappings.gender (.scalar "m")).filter =
        (r.gender == "m" || r.gender == "u") := by
  constructor
  · cases v with
    | scalar s =>
      simp [filterMappings.gender, evalFilterExpr, evalCond, evalPrim, sqlEq, fieldVal,
        requestedValues]
    | array l =>
      simp [filterMappings.gender, evalFilterExpr, evalCond, evalPrim, sqlEq, fieldVal,
        requestedValues, List.any_eq_true]
  · simp [filterMappings.gender, evalFilterExpr, evalCond, evalPrim, sqlEq, fieldVal]

/-- C3: at a fixed current UTC date, a release with a non-null releaseDate
satisfies exactly one of the `outdated` and `coming` predicates, and a
release with a null releaseDate satisfies neither: their disjunction is
exactly non-nullness and their conjunction is empty. -/
theorem outdated_coming_partition (today : Nat) (v : FilterValue) (r : ReleaseRow) :
    ((evalFilterExpr r (filterMappings.outdated today v).filter ||
        evalFilterExpr r (filterMappings.coming today v).filter) = r.releaseDate.isSome)
    ∧ (evalFilterExpr r (filterMappings.outdated today v).filter &&
        evalFilterExpr r (filterMappings.coming today v).filter) = false := by
  cases hrd : r.releaseDate with
  | none =>
    simp [filterMappings.outdated, filterMappings.coming, evalFilterExpr, evalCond,
      evalPrim, fieldVal, hrd, sqlLt, sqlGe, sqlLe]
  | some d =>
    simp only [filterMappings.outdated, filterMappings.coming, evalFilterExpr, evalCond,
      evalPrim, fieldVal, hrd, sqlLt, sqlGe, sqlLe, Option.isSome_some, List.all_cons,
      List.all_nil, Bool.and_true]
    constructor
    · by_cases hlt : d < today
      · simp [hlt]
      · simp [hlt, Nat.le_of_not_lt hlt]
    · by_cases hlt : d < today
      · simp [hlt, Nat.not_le_of_lt hlt]
      · simp [hlt]

instance (p : List Char) : Decidable (NoMeta p) := by
  unfold NoMeta
  infer_instance

/-- C1 (amended): for every input string whose whitespace tokens are free of
the SQL LIKE metacharacters `%` and `_`, the `query` filter's predicate holds
on a release exactly when every token is a substring of its name or every
token is a substring of its sku; and provided the input is nonempty with no
leading or trailing whitespace, no token produced by the tokenization is
empty. -/
theorem query_filter_semantics (value : String) (r : ReleaseRow)
    (hmeta : ∀ w ∈ splitWS value.data, NoMeta w)
    (hedge : noEdgeWS value.data = true) :
    (evalFilterExpr r (filterMappings.query value).filter = true ↔
       (∀ w ∈ splitWS value.data, w <:+: r.name.data) ∨
       (∀ w ∈ splitWS value.data, w <:+: r.sku.data))
    ∧ (∀ w ∈ splitWS value.data, w ≠ []) := by
  refine ⟨?_, splitWS_tokens_ne_nil value.data hedge⟩
  have hcond : ∀ (s : String),
      (evalCond (SqlVal.str s) (WhereCond.andv ((splitWS value.data).map
        (fun w => PrimCond.like ('%' :: w ++ ['%'])))) = true ↔
      ∀ w ∈ splitWS value.data, w <:+: s.data) := by
    intro s
    simp only [evalCond, List.all_eq_true]
    constructor
    · intro hall w hw
      have hp := hall (PrimCond.like ('%' :: w ++ ['%'])) (List.mem_map_of_mem _ hw)
      exact (likeMatch_wrap_percent w (hmeta w hw) s.data).mp hp
    · intro hinf p hp
      obtain ⟨w, hw, rfl⟩ := List.mem_map.mp hp
      exact (likeMatch_wrap_percent w (hmeta w hw) s.data).mpr (hinf w hw)
  have htop : evalFilterExpr r (filterMappings.query value).filter =
      (evalCond (SqlVal.str r.name) (WhereCond.andv ((splitWS value.data).map
        (fun w => PrimCond.like ('%' :: w ++ ['%'])))) ||
       evalCond (SqlVal.str r.sku) (WhereCond.andv ((splitWS value.data).map
        (fun w => PrimCond.like ('%' :: w ++ ['%']))))) := by
    simp [filterMappings.query, evalFilterExpr, fieldVal]
  rw [htop, Bool.or_eq_true, hcond, hcond]

/-- A sample release row used as a concrete witness input. -/
def sampleRelease : ReleaseRow where
  id := 1
  slug := "AJ1-red"
  name := "aima"
  sku := "zz"
  gender := "m"
  color := "red"
  releaseDate := some 5
  priceEUR := 90
  priceGBP := 80
  priceUSD := 100
  hiddenDashboard := false
  updatedAt := 3

/-- C1 (counterexample): the claim fails on the code in both parts.
Tokenizing the input " air" (leading whitespace) produces an empty token,
whose LIKE pattern is `%%`; and on the input "a%c" the produced predicate
holds on a release named "axc" (sku "zz") although the sole token "a%c" is a
substring of neither its name nor its sku, because `%` acts as a wildcard
inside the LIKE pattern. -/
theorem query_filter_counterexample :
    filterMappings.query " air" =
      { filter := .orFields
          [(.name, .andv [.like ['%', '%'], .like ['%', 'a', 'i', 'r', '%']]),
           (.sku, .andv [.like ['%', '%'], .like ['%', 'a', 'i', 'r', '%']])],
        model := none }
    ∧ [] ∈ splitWS " air".data
    ∧ evalFilterExpr { sampleRelease with name := "axc" } (filterMappings.query "a%c").filter = true
    ∧ ¬ "a%c".data <:+: "axc".data ∧ ¬ "a%c".data <:+: "zz".data :=
  ⟨by decide, by decide, by decide, by decide, by decide⟩

/-- C1 (witness): the amended theorem applied to the query "ai ma" and a
release named "aima" with sku "zz". -/
theorem query_filter_semantics_witness :
    (∀ w ∈ splitWS "ai ma".data, NoMeta w) ∧ noEdgeWS "ai ma".data = true ∧
    ((evalFilterExpr sampleRelease (filterMappings.query "ai ma").filter = true ↔
       (∀ w ∈ splitWS "ai ma".data, w <:+: sampleRelease.name.data) ∨
       (∀ w ∈ splitWS "ai ma".data, w <:+: sampleRelease.sku.data))
     ∧ ∀ w ∈ splitWS "ai ma".data, w ≠ []) :=
  ⟨by decide, by decide, query_filter_semantics "ai ma" sampleRelease (by decide) (by decide)⟩

/-- C4 (counterexample): applying the `minPriceUSD` filter to the
non-numeric string "abc" does not fail: `parseFloat` yields NaN, query
composition succeeds with the NaN bound embedded in the predicate, and no
`ValidationError` exists anywhere in the source. -/
theorem malformed_filter_no_error_counterexample :
    jsParseFloat "abc" = .nan
    ∧ composeQuery 0 [(.minPriceUSD, .scalar "abc")] =
        .ok [{ filter := .field .priceUSD (.prim (.gte (.jnum .nan))), model := none }]
    ∧ evalFilterExpr sampleRelease (filterMappings.minPriceUSD (.scalar "abc")).filter = false :=
  ⟨by decide, by decide, by decide⟩

/-- C4 (amended): a malformed numeric value is coerced by `parseFloat` to
NaN and a malformed date by `moment.utc` to an invalid date; query
composition succeeds with those values embedded, no error is raised, and
the resulting price and date predicates simply match no release. -/
theorem malformed_filter_silently_coerced (today : Nat) (v w : FilterValue) (r : ReleaseRow)
    (h1 : jsParseFloat (toJSString v) = .nan) (h2 : momentUtcFV w = none) :
    composeQuery today [(.minPriceUSD, v), (.fromDate, w)] =
      .ok [{ filter := .field .priceUSD (.prim (.gte (.jnum .nan))), model := none },
           { filter := .field .releaseDate (.prim (.gte .invalidDate)), model := none }]
    ∧ evalFilterExpr r (filterMappings.minPriceUSD v).filter = false
    ∧ evalFilterExpr r (filterMappings.fromDate w).filter = false := by
  refine ⟨?_, ?_, ?_⟩
  · show List.mapM _ _ = _
    rw [List.mapM_cons, List.mapM_cons, List.mapM_nil]
    simp only [applyFilter, filterMappings.minPriceUSD, filterMappings.fromDate, momentVal,
      h1, h2]
    rfl
  · simp [filterMappings.minPriceUSD, evalFilterExpr, evalCond, evalPrim, fieldVal, h1,
      sqlGe, sqlLe, jsNumLe]
  · cases hr : r.releaseDate with
    | none =>
      simp [filterMappings.fromDate, momentVal, evalFilterExpr, evalCond, evalPrim, fieldVal,
        h2, hr, sqlGe, sqlLe]
    | some d =>
      simp [filterMappings.fromDate, momentVal, evalFilterExpr, evalCond, evalPrim, fieldVal,
        h2, hr, sqlGe, sqlLe]

/-- C4 (witness): the amended theorem applied to the malformed price "abc"
and the malformed date "garbage". -/
theorem malformed_filter_silently_coerced_witness :
    jsParseFloat (toJSString (.scalar "abc")) = .nan
    ∧ momentUtcFV (.scalar "garbage") = none
    ∧ (composeQuery 7 [(.minPriceUSD, .scalar "abc"), (.fromDate, .scalar "garbage")] =
        .ok [{ filter := .field .priceUSD (.prim (.gte (.jnum .nan))), model := none },
             { filter := .field .releaseDate (.prim (.gte .invalidDate)), model := none }]
      ∧ evalFilterExpr sampleRelease (filterMappings.minPriceUSD (.scalar "abc")).filter = false
      ∧ evalFilterExpr sampleRelease (filterMappings.fromDate (.scalar "garbage")).filter = false) :=
  ⟨by decide, by decide,
    malformed_filter_silently_coerced 7 (.scalar "abc") (.scalar "garbage") sampleRelease
      (by decide) (by decide)⟩

/-- C8: for every value that `parseFloat` reads as a finite number q, the
six price filters bound the corresponding price field inclusively (>= for
min, <= for max); in particular `minPriceUSD = 100` together with
`maxPriceUSD = 100` matches exactly the releases priced at 100 USD. -/
theorem price_bounds_inclusive (v : String) (q : Rat) (r : ReleaseRow)
    (h : jsParseFloat v = .num q) :
    (evalFilterExpr r (filterMappings.minPriceEUR (.scalar v)).filter = true ↔ q ≤ r.priceEUR)
    ∧ (evalFilterExpr r (filterMappings.maxPriceEUR (.scalar v)).filter = true ↔ r.priceEUR ≤ q)
    ∧ (evalFilterExpr r (filterMappings.minPriceGBP (.scalar v)).filter = true ↔ q ≤ r.priceGBP)
    ∧ (evalFilterExpr r (filterMappings.maxPriceGBP (.scalar v)).filter = true ↔ r.priceGBP ≤ q)
    ∧ (evalFilterExpr r (filterMappings.minPriceUSD (.scalar v)).filter = true ↔ q ≤ r.priceUSD)
    ∧ (evalFilterExpr r (filterMappings.maxPriceUSD (.scalar v)).filter = true ↔ r.priceUSD ≤ q)
    ∧ ((evalFilterExpr r (filterMappings.minPriceUSD (.scalar "100")).filter &&
        evalFilterExpr r (filterMappings.maxPriceUSD (.scalar "100")).filter) = true ↔
        r.priceUSD = 100) := by
  have h100 : jsParseFloat "100" = .num 100 := by decide
  refine ⟨?_, ?_, ?_, ?_, ?_, ?_, ?_⟩ <;>
    simp [filterMappings.minPriceEUR, filterMappings.maxPriceEUR, filterMappings.minPriceGBP,
      filterMappings.maxPriceGBP, filterMappings.minPriceUSD, filterMappings.maxPriceUSD,
      evalFilterExpr, evalCond, evalPrim, fieldVal, toJSString, h, h100, sqlGe, sqlLe, jsNumLe]
  constructor
  · intro ⟨h1, h2⟩
    exact le_antisymm h2 h1
  · intro he
    simp [he]

/-- C8 (witness): the bounds theorem applied to the value "100" and the
sample release priced at exactly 100 USD. -/
theorem price_bounds_inclusive_witness :
    jsParseFloat "100" = .num 100
    ∧ ((evalFilterExpr sampleRelease (filterMappings.minPriceEUR (.scalar "100")).filter = true ↔
          (100 : Rat) ≤ sampleRelease.priceEUR)
      ∧ (evalFilterExpr sampleRelease (filterMappings.maxPriceEUR (.scalar "100")).filter = true ↔
          sampleRelease.priceEUR ≤ (100 : Rat))
      ∧ (evalFilterExpr sampleRelease (filterMappings.minPriceGBP (.scalar "100")).filter = true ↔
          (100 : Rat) ≤ sampleRelease.priceGBP)
      ∧ (evalFilterExpr sampleRelease (filterMappings.maxPriceGBP (.scalar "100")).filter = true ↔
          sampleRelease.priceGBP ≤ (100 : Rat))
      ∧ (evalFilterExpr sampleRelease (filterMappings.minPriceUSD (.scalar "100")).filter = true ↔
          (100 : Rat) ≤ sampleRelease.priceUSD)
      ∧ (evalFilterExpr sampleRelease (filterMappings.maxPriceUSD (.scalar "100")).filter = true ↔
          sampleRelease.priceUSD ≤ (100 : Rat))
      ∧ ((evalFilterExpr sampleRelease (filterMappings.minPriceUSD (.scalar "100")).filter &&
          evalFilterExpr sampleRelease (filterMappings.maxPriceUSD (.scalar "100")).filter) = true ↔
          sampleRelease.priceUSD = 100)) :=
  ⟨by decide, price_bounds_inclusive "100" 100 sampleRelease (by decide)⟩

/-- C9 (counterexample): the `outdated` filter function is not pure across
environments: invoked at two different current UTC dates with the same raw
value it returns different predicate fragments, because it reads the clock
through `moment.utc()`. -/
theorem filter_time_dependence_counterexample :
    applyFilter 0 .outdated (.scalar "1") ≠ applyFilter 1 .outdated (.scalar "1") := by decide

/-- C9 (amended): every filter function in the registry other than
`outdated` and `coming` is pure: its predicate fragment and target entity
depend only on the raw value, not on the current date; `outdated` and
`coming` are deterministic in the value and the current UTC date but differ
across dates. -/
theorem filters_time_independent_except_date_reading (t t' : Nat) (k : FilterKey)
    (v : FilterValue) (h1 : k ≠ .outdated) (h2 : k ≠ .coming) :
    applyFilter t k v = applyFilter t' k v := by
  cases k <;>
    first
    | rfl
    | exact absurd rfl h1
    | exact absurd rfl h2

/-- C9 (witness): the purity theorem applied to the `gender` filter at two
different dates. -/
theorem filters_time_independent_witness :
    FilterKey.gender ≠ FilterKey.outdated ∧ FilterKey.gender ≠ FilterKey.coming ∧
    applyFilter 0 .gender (.scalar "m") = applyFilter 5 .gender (.scalar "m") :=
  ⟨by decide, by decide,
    filters_time_independent_except_date_reading 0 5 .gender (.scalar "m") (by decide) (by decide)⟩

/-- A sample image row used as a concrete witness input. -/
def sampleImage : ImageRow where
  id := 10
  image := "img-a.png"

/-- A one-release store with no images. -/
def sampleDB : DB where
  releases := [sampleRelease]
  images := []
  assoc := []

/-- A one-release store whose release owns one image. -/
def sampleDB2 : DB where
  releases := [sampleRelease]
  images := [sampleImage]
  assoc := [(1, 10)]

/-- C5: `createImages` on an id with no existing release fails with
`EntityNotFound` and leaves the store untouched (zero image rows, zero
association rows); on an existing release it appends the given image rows,
appends one association row per image, and returns exactly the created
records. -/
theorem createImages_spec (db : DB) (id : Nat) (imgs : List ImageRow) :
    ((∀ r ∈ db.releases, r.id ≠ id) →
      createImages db id imgs = (.error .entityNotFound, db))
    ∧ (∀ rel, findOne db id = some rel →
      createImages db id imgs =
        (.ok imgs,
          { releases := db.releases, images := db.images ++ imgs,
            assoc := db.assoc ++ imgs.map (fun im => (rel.id, im.id)) })) := by
  constructor
  · intro hno
    have hfind : findOne db id = none := by
      rw [findOne, List.find?_eq_none]
      intro r hr
      simpa using hno r hr
    simp [createImages, hfind]
  · intro rel hrel
    simp [createImages, hrel]

/-- C5 (witness): `createImages` on the one-release store, at a missing id
and at the existing id. -/
theorem createImages_spec_witness :
    createImages sampleDB 99 [sampleImage] = (.error .entityNotFound, sampleDB)
    ∧ createImages sampleDB 1 [sampleImage] =
        (.ok [sampleImage],
          { releases := [sampleRelease], images := [sampleImage], assoc := [(1, 10)] }) :=
  ⟨(createImages_spec sampleDB 99 [sampleImage]).1 (by decide),
   by
     have h := (createImages_spec sampleDB 1 [sampleImage]).2 sampleRelease (by decide)
     rw [h]
     decide⟩

/-- C6: `getAllImages` fails with `EntityNotFound` when no release has the
given id; otherwise it returns the release's associated images each
converted by `ReleaseImage`, and in particular the empty sequence — not an
error — when the release has no images. -/
theorem getAllImages_spec (db : DB) (id : Nat) :
    ((∀ r ∈ db.releases, r.id ≠ id) → getAllImages db id = .error .entityNotFound)
    ∧ (∀ rel, findOne db id = some rel →
        getAllImages db id = .ok ((getImages db rel.id).map ReleaseImage)
        ∧ (getImages db rel.id = [] → getAllImages db id = .ok [])) := by
  constructor
  · intro hno
    have hfind : findOne db id = none := by
      rw [findOne, List.find?_eq_none]
      intro r hr
      simpa using hno r hr
    simp [getAllImages, hfind]
  · intro rel hrel
    refine ⟨by simp [getAllImages, hrel], fun hempty => by simp [getAllImages, hrel, hempty]⟩

/-- C6 (witness): `getAllImages` at a missing id, at a release with no
images, and at a release owning one image. -/
theorem getAllImages_spec_witness :
    getAllImages sampleDB 99 = .error .entityNotFound
    ∧ getAllImages sampleDB 1 = .ok []
    ∧ getAllImages sampleDB2 1 = .ok [ReleaseImage sampleImage] :=
  ⟨(getAllImages_spec sampleDB 99).1 (by decide),
   ((getAllImages_spec sampleDB 1).2 sampleRelease (by decide)).2 (by decide),
   by
     have h := ((getAllImages_spec sampleDB2 1).2 sampleRelease (by decide)).1
     rw [h]
     decide⟩

/-- A store with a single release whose slug "AB" is caught by the LIKE
wildcard `_` though it does not start with the literal prefix "A_". -/
def wildcardDB : DB where
  releases := [{ sampleRelease with slug := "AB" }]
  images := []
  assoc := []

/-- The store of the specification's example: slugs AJ1-red, AJ1-blue,
AJ4-red. -/
def ajDB : DB where
  releases := [{ sampleRelease with id := 1, slug := "AJ1-red" },
               { sampleRelease with id := 2, slug := "AJ1-blue" },
               { sampleRelease with id := 3, slug := "AJ4-red" }]
  images := []
  assoc := []

/-- C7 (counterexample): `countLikeReleases` is not a pure prefix count for
every input string: the pattern `slug + "%"` keeps LIKE metacharacters
alive, so the prefix "A_" counts the slug "AB" (`_` matches any single
character) although "AB" does not start with "A_". -/
theorem countLikeReleases_wildcard_counterexample :
    countLikeReleases wildcardDB "A_" = 1
    ∧ (wildcardDB.releases.filter (fun r => "A_".data.isPrefixOf r.slug.data)).length = 0 :=
  ⟨by decide, by decide⟩

/-- C7 (amended): for every prefix free of the LIKE metacharacters `%` and
`_`, `countLikeReleases` returns the number of releases whose slug starts
with the prefix, and 0 — not an error — when none does. -/
theorem countLikeReleases_prefix_count (db : DB) (slug : String)
    (h : NoMeta slug.data) :
    countLikeReleases db slug =
      (db.releases.filter (fun r => slug.data.isPrefixOf r.slug.data)).length
    ∧ ((∀ r ∈ db.releases, ¬ slug.data.isPrefixOf r.slug.data = true) →
        countLikeReleases db slug = 0) := by
  have hfilter : (fun (r : ReleaseRow) => likeMatch (slug.data ++ ['%']) r.slug.data) =
      (fun r => slug.data.isPrefixOf r.slug.data) := by
    funext r
    exact likeMatch_append_percent slug.data h r.slug.data
  have hmain : countLikeReleases db slug =
      (db.releases.filter (fun r => slug.data.isPrefixOf r.slug.data)).length := by
    show (db.releases.filter (fun r => likeMatch (slug.data ++ ['%']) r.slug.data)).length = _
    rw [hfilter]
  refine ⟨hmain, fun hnone => ?_⟩
  rw [hmain, List.length_eq_zero, List.filter_eq_nil_iff]
  intro r hr
  simpa using hnone r hr

/-- C7 (witness): the specification's example — on slugs AJ1-red, AJ1-blue,
AJ4-red the prefix "AJ1" yields 2. -/
theorem countLikeReleases_prefix_count_witness :
    NoMeta "AJ1".data
    ∧ countLikeReleases ajDB "AJ1" =
        (ajDB.releases.filter (fun r => "AJ1".data.isPrefixOf r.slug.data)).length
    ∧ countLikeReleases ajDB "AJ1" = 2 :=
  ⟨by decide, (countLikeReleases_prefix_count ajDB "AJ1" (by decide)).1,
   by
     rw [(countLikeReleases_prefix_count ajDB "AJ1" (by decide)).1]
     decide⟩

/-- A second release, untouched by updates aimed at id 1. -/
def frameRelease2 : ReleaseRow := { sampleRelease with id := 2, updatedAt := 4 }

/-- A two-release store for the frame theorem. -/
def frameDB : DB where
  releases := [sampleRelease, frameRelease2]
  images := [sampleImage]
  assoc := [(1, 10)]

/-- C10 (counterexample): `setHiddenDashboard` does not leave every other
field unchanged: under the backend's automatic timestamp management a
`model.update` also stamps `updatedAt`, so updating the flag of the release
whose `updatedAt` was 3 at time 9 leaves it with `updatedAt` 9. -/
theorem setHiddenDashboard_updatedAt_counterexample :
    (setHiddenDashboard sampleDB 9 1 true).releases.map (fun r => r.updatedAt) = [9]
    ∧ sampleDB.releases.map (fun r => r.updatedAt) = [3] :=
  ⟨by decide, by decide⟩

/-- C10 (amended): `setHiddenDashboard` changes only the `hiddenDashboard`
flag and the automatically managed `updatedAt` timestamp of the releases
whose id matches; every other field of those releases, every other release,
and the image and association tables are unchanged. -/
theorem setHiddenDashboard_frame (db : DB) (now id : Nat) (flag : Bool) :
    (setHiddenDashboard db now id flag).images = db.images
    ∧ (setHiddenDashboard db now id flag).assoc = db.assoc
    ∧ (setHiddenDashboard db now id flag).releases.length = db.releases.length
    ∧ ∀ (i : Nat) (r : ReleaseRow), db.releases[i]? = some r →
        ((r.id ≠ id → (setHiddenDashboard db now id flag).releases[i]? = some r)
         ∧ (r.id = id →
             (setHiddenDashboard db now id flag).releases[i]? =
               some { r with hiddenDashboard := flag, updatedAt := now })) := by
  refine ⟨rfl, rfl, by simp [setHiddenDashboard], ?_⟩
  intro i r hr
  constructor
  · intro hne
    simp [setHiddenDashboard, List.getElem?_map, hr, hne]
  · intro heq
    simp [setHiddenDashboard, List.getElem?_map, hr, heq]

/-- C10 (witness): the frame theorem on the two-release store, updating the
flag of release 1 at time 9: release 2 is untouched and release 1 keeps all
fields except the flag and the timestamp. -/
theorem setHiddenDashboard_frame_witness :
    (setHiddenDashboard frameDB 9 1 true).images = frameDB.images
    ∧ (setHiddenDashboard frameDB 9 1 true).assoc = frameDB.assoc
    ∧ (setHiddenDashboard frameDB 9 1 true).releases.length = frameDB.releases.length
    ∧ (setHiddenDashboard frameDB 9 1 true).releases[1]? = some frameRelease2
    ∧ (setHiddenDashboard frameDB 9 1 true).releases[0]? =
        some { sampleRelease with hiddenDashboard := true, updatedAt := 9 } :=
  ⟨(setHiddenDashboard_frame frameDB 9 1 true).1,
   (setHiddenDashboard_frame frameDB 9 1 true).2.1,
   (setHiddenDashboard_frame frameDB 9 1 true).2.2.1,
   ((setHiddenDashboard_frame frameDB 9 1 true).2.2.2 1 frameRelease2 (by decide)).1 (by decide),
   ((setHiddenDashboard_frame frameDB 9 1 true).2.2.2 0 sampleRelease (by decide)).2 (by decide)⟩
